import Mathlib

/-!
Verification development for the D2L ePortfolio presentation exporter
(`d2lvalence/d2lepoexport_presentation.py`).

Strings are modelled as `List Char`.  Python's string primitives
(`str.find`, `str.rfind`, slicing with possibly negative indices,
`str.isalnum`, `str.isdigit`) are modelled explicitly below; an uncaught
Python exception (`IndexError`, `KeyError`) is modelled by an `Option`
result of `none`.
-/

set_option autoImplicit false

namespace D2LExport

/-- Characters of a string literal, the working representation of text. -/
def chars (s : String) : List Char := s.data

/-- Model of Python's `str.isalnum` restricted to ASCII text. -/
def pyIsAlnum (c : Char) : Bool := c.isAlpha || c.isDigit

/-- First index at or after `i` where `needle` is a prefix of the remaining
text, scanning left to right. -/
def findAux (needle : List Char) : List Char → Nat → Option Nat
  | [], i => if needle.isPrefixOf ([] : List Char) then some i else none
  | c :: t, i =>
    if needle.isPrefixOf (c :: t) then some i else findAux needle t (i + 1)

/-- Model of Python's `str.find`: index of the first occurrence of `needle`
in `hay`, or `-1` when absent. -/
def pyFind (hay needle : List Char) : Int :=
  match findAux needle hay 0 with
  | some n => (n : Int)
  | none => -1

/-- Last index where `needle` is a prefix of the remaining text. -/
def rfindAux (needle : List Char) : List Char → Nat → Option Nat
  | [], i => if needle.isPrefixOf ([] : List Char) then some i else none
  | c :: t, i =>
    match rfindAux needle t (i + 1) with
    | some j => some j
    | none => if needle.isPrefixOf (c :: t) then some i else none

/-- Model of Python's `str.rfind`: index of the last occurrence of `needle`
in `hay`, or `-1` when absent. -/
def pyRfind (hay needle : List Char) : Int :=
  match rfindAux needle hay 0 with
  | some n => (n : Int)
  | none => -1

/-- Normalise a Python slice index: a negative index counts from the end
(clamped at `0`). -/
def pyIdx (len : Nat) (i : Int) : Nat :=
  if 0 ≤ i then i.toNat else ((len : Int) + i).toNat

/-- Model of the Python slice `s[i:]`. -/
def pyDrop (s : List Char) (i : Int) : List Char :=
  s.drop (pyIdx s.length i)

/-- Model of the Python slice `s[:i]`. -/
def pyTake (s : List Char) (i : Int) : List Char :=
  s.take (pyIdx s.length i)

/-- Model of the Python slice `s[b:e]`. -/
def pySlice (s : List Char) (b e : Int) : List Char :=
  (s.take (pyIdx s.length e)).drop (pyIdx s.length b)

/-- Model of Python's `str.find(needle, start)` for `0 ≤ start`. -/
def pyFindFrom (hay needle : List Char) (start : Int) : Int :=
  let st := pyIdx hay.length start
  match findAux needle (hay.drop st) 0 with
  | some n => ((st + n : Nat) : Int)
  | none => -1

/-- The `while nextCharacter.isdigit()` scan of `get_page_id` /
`get_epo_id`: it indexes the string at each step, so it raises
`IndexError` (modelled `none`) when the digit run reaches the end of the
text (or the text is empty); otherwise it returns the maximal digit
prefix. -/
def scanDigits : List Char → Option (List Char)
  | [] => none
  | c :: t =>
    if c.isDigit then
      match scanDigits t with
      | some ds => some (c :: ds)
      | none => none
    else some []

/-- `get_page_id(onclick, objectId)` from the source: slice the text after
the first occurrence of `objectId` plus one separator character, then read
the digit run (which can raise, hence `Option`). When `objectId` is absent
`find` gives `-1` and the scan starts at offset `len(objectId)`. -/
def get_page_id (onclick objectId : List Char) : Option (List Char) :=
  let beginIndex : Int := pyFind onclick objectId + (objectId.length : Int) + 1
  let pageId := pyDrop onclick beginIndex
  scanDigits pageId

/-- `get_epo_id(href)` from the source: slice the text after the first
occurrence of `"contextId="`, then read the digit run. When the marker is
absent `find` gives `-1` and the scan starts at offset `9`. -/
def get_epo_id (href : List Char) : Option (List Char) :=
  let marker := chars "contextId="
  let beginIndex : Int := pyFind href marker + (marker.length : Int)
  scanDigits (pyDrop href beginIndex)

/-- The module constant `DOMAIN` of the source ("Will need to be customized
to your domain"); functions that the spec describes over a configured
domain take it as the parameter `domain`, instantiated with this constant
for the shipped configuration. -/
def DOMAIN : List Char := chars "https://uwosh-beta.courses.wisconsin.edu"

/-- The `fileDict` of the source: ten parallel lists collecting pages,
embedded files, stylesheets and formatting images. -/
structure FileDict where
  pageUrls : List (List Char)
  pageFileNames : List (List Char)
  pageIds : List (List Char)
  fileUrls : List (List Char)
  fileIds : List (List Char)
  fileNames : List (List Char)
  cssUrls : List (List Char)
  cssFileNames : List (List Char)
  imgUrls : List (List Char)
  imgFileNames : List (List Char)
deriving DecidableEq

/-- `make_file_dict()` from the source: every list starts empty. -/
def make_file_dict : FileDict :=
  ⟨[], [], [], [], [], [], [], [], [], []⟩

/-- An `<a>` element as the collection pass sees it: its `href` attribute,
absent when the tag carries none (access then raises, modelled `none`). -/
structure Anchor where
  href : Option (List Char)
deriving DecidableEq

/-- A `<link>` element: its `type` and `href` attributes. -/
structure LinkTag where
  type : Option (List Char)
  href : Option (List Char)
deriving DecidableEq

/-- An `<img>` element: its `src` attribute. -/
structure Img where
  src : Option (List Char)
deriving DecidableEq

/-- Body of `get_embedded_object`'s loop for one anchor. `a['href']` is
read unconditionally (`KeyError`, modelled `none`, when absent); an href
containing `d2lfile` at a positive index has its object id extracted
(`get_epo_id` may raise) and, when the id is unseen, the id, the
`DOMAIN`-prefixed URL and the metadata display name
(`get_ep_object_properties(uc, epoId).FileName.strip()`, modelled by the
external `lookup`) are appended. -/
def processAnchor (lookup : List Char → List Char) (fd : FileDict) (a : Anchor) :
    Option FileDict :=
  match a.href with
  | none => none
  | some href =>
    if pyFind href (chars "d2lfile") > 0 then
      match get_epo_id href with
      | none => none
      | some epoId =>
        if epoId ∈ fd.fileIds then some fd
        else some { fd with
          fileIds := fd.fileIds ++ [epoId],
          fileUrls := fd.fileUrls ++ [DOMAIN ++ href],
          fileNames := fd.fileNames ++ [lookup epoId] }
    else some fd

/-- `get_embedded_object(soup, fileDict, uc)` over the document's anchors. -/
def get_embedded_object (lookup : List Char → List Char) :
    List Anchor → FileDict → Option FileDict
  | [], fd => some fd
  | a :: rest, fd =>
    match processAnchor lookup fd a with
    | none => none
    | some fd2 => get_embedded_object lookup rest fd2

/-- Body of `get_css`'s loop for one `<link>`. `link['type']` is read
unconditionally; for a `text/css` link the `DOMAIN`-prefixed URL is
deduplicated against `cssUrls` (full URL, query string included) and the
stored file name is the last path segment with a query string at positive
index stripped. -/
def processLink (fd : FileDict) (l : LinkTag) : Option FileDict :=
  match l.type with
  | none => none
  | some t =>
    if t = chars "text/css" then
      match l.href with
      | none => none
      | some h =>
        let css := DOMAIN ++ h
        if css ∈ fd.cssUrls then some fd
        else
          let fileName0 := pyDrop css (pyRfind css (chars "/") + 1)
          let fileName :=
            if pyFind fileName0 (chars "?") > 0 then
              pyTake fileName0 (pyFind fileName0 (chars "?"))
            else fileName0
          some { fd with
            cssUrls := fd.cssUrls ++ [css],
            cssFileNames := fd.cssFileNames ++ [fileName] }
    else some fd

/-- `get_css(soup, fileDict)` over the document's `<link>` elements. -/
def get_css : List LinkTag → FileDict → Option FileDict
  | [], fd => some fd
  | l :: rest, fd =>
    match processLink fd l with
    | none => none
    | some fd2 => get_css rest fd2

/-- Body of `get_img`'s loop for one `<img>`. A src without `d2lFile` is a
formatting image: its `DOMAIN`-prefixed URL is deduplicated against
`imgUrls` and appended — note the source never appends to `imgFileNames`.
A src containing `d2lFile` is an embedded file, registered by object id
exactly as in `processAnchor`. -/
def processImg (lookup : List Char → List Char) (fd : FileDict) (im : Img) :
    Option FileDict :=
  match im.src with
  | none => none
  | some src =>
    if pyFind src (chars "d2lFile") < 0 then
      let img := DOMAIN ++ src
      if img ∈ fd.imgUrls then some fd
      else some { fd with imgUrls := fd.imgUrls ++ [img] }
    else
      let address := DOMAIN ++ src
      match get_epo_id src with
      | none => none
      | some epoId =>
        if epoId ∈ fd.fileIds then some fd
        else some { fd with
          fileIds := fd.fileIds ++ [epoId],
          fileUrls := fd.fileUrls ++ [address],
          fileNames := fd.fileNames ++ [lookup epoId] }

/-- `get_img(soup, fileDict, uc)` over the document's `<img>` elements. -/
def get_img (lookup : List Char → List Char) : List Img → FileDict → Option FileDict
  | [], fd => some fd
  | im :: rest, fd =>
    match processImg lookup fd im with
    | none => none
    | some fd2 => get_img lookup rest fd2

/-- Model of `urllib.parse.urlparse(url).path` for the absolute
`scheme://netloc/path` URLs this program builds: the text from the first
`/` after `://` up to the first `?` or `#`. -/
def urlparsePath (url : List Char) : List Char :=
  let afterScheme :=
    if pyFind url (chars "://") ≥ 0 then
      pyDrop url (pyFind url (chars "://") + 3)
    else url
  let i := pyFind afterScheme (chars "/")
  let rest := if i ≥ 0 then pyDrop afterScheme i else []
  rest.takeWhile (fun c => decide (c ≠ '?') && decide (c ≠ '#'))

/-- An element of the `find_all(['a', 'img'])` result of
`update_file_urls`: both optional attributes, guarded by `has_attr`. -/
structure Item where
  href : Option (List Char)
  src : Option (List Char)
deriving DecidableEq

/-- The relative path `'./content/' + fileName` / `'../content/' + fileName`
written by `update_file_urls`. -/
def contentPath (index : Bool) (fileName : List Char) : List Char :=
  (if index then chars "./content/" else chars "../content/") ++ fileName

/-- One attribute's update for one `(fileId, fileName)` pair in
`update_file_urls`: rewrite when the id occurs at a positive index. -/
def fileRefStep (index : Bool) (h : List Char) (p : List Char × List Char) :
    List Char :=
  if pyFind h p.1 > 0 then contentPath index p.2 else h

/-- Body of `update_file_urls`'s inner loop for one item and one
`(fileId, fileName)` pair: the `href` branch, then the `src` branch on the
updated item. -/
def fileStep (index : Bool) (it : Item) (p : List Char × List Char) : Item :=
  let it1 :=
    match it.href with
    | some h => { it with href := some (fileRefStep index h p) }
    | none => it
  match it1.src with
  | some s => { it1 with src := some (fileRefStep index s p) }
  | none => it1

/-- `update_file_urls` restricted to one item: the inner loop runs over
`zip(fileDict['fileIds'], fileDict['fileNames'])`, re-reading the
attributes it just rewrote. -/
def update_file_urls_item (pairs : List (List Char × List Char)) (index : Bool)
    (it : Item) : Item :=
  pairs.foldl (fileStep index) it

/-- `update_file_urls(soup, fileDict, index)` over the document's
anchor/image items. -/
def update_file_urls (pairs : List (List Char × List Char)) (index : Bool)
    (items : List Item) : List Item :=
  items.map (update_file_urls_item pairs index)

/-- Body of `update_page_urls`'s inner loop for one navigation anchor
(`href == 'javascript://'`) and one `(pageId, pageFileName)` pair: when the
page id occurs in the anchor's `onclick` at a positive index the href
becomes `'./pages/' + name` on the root document, the bare name for a
non-root sibling, and `'../' + name` when the target is the index page. -/
def pageStep (index : Bool) (onclick : List Char) (href : List Char)
    (p : List Char × List Char) : List Char :=
  if pyFind onclick p.1 > 0 then
    if index then chars "./pages/" ++ p.2
    else if p.2 ≠ chars "index.html" then p.2
    else chars "../" ++ p.2
  else href

/-- `update_page_urls` restricted to one navigation anchor's href: the
inner loop over `zip(fileDict['pageIds'], fileDict['pageFileNames'])`. -/
def update_page_href (pairs : List (List Char × List Char)) (index : Bool)
    (onclick href0 : List Char) : List Char :=
  pairs.foldl (pageStep index onclick) href0

/-- Body of `update_image_urls`'s inner loop for one `<img>` and one
`(imgUrl, imgFileName)` pair: a src free of `d2lFile` that equals the
URL's parsed path component is rewritten to the formatting folder. -/
def imgStep (index : Bool) (src : List Char) (p : List Char × List Char) :
    List Char :=
  if pyFind src (chars "d2lFile") < 0 then
    if src = urlparsePath p.1 then
      (if index then chars "./formatting/" else chars "../formatting/") ++ p.2
    else src
  else src

/-- `update_image_urls` restricted to one `<img>`: `img['src']` is read
inside the loop over `zip(fileDict['imgUrls'], fileDict['imgFileNames'])`,
so a missing src raises (modelled `none`) exactly when that zip is
non-empty. -/
def updateImgSrc (pairs : List (List Char × List Char)) (index : Bool)
    (src : Option (List Char)) : Option (Option (List Char)) :=
  match pairs with
  | [] => some src
  | _ :: _ =>
    match src with
    | none => none
    | some s => some (some (pairs.foldl (imgStep index) s))

/-- `update_image_urls(soup, fileDict, index)` over the document's
`<img>` elements. -/
def update_image_urls (pairs : List (List Char × List Char)) (index : Bool) :
    List Img → Option (List Img)
  | [] => some []
  | im :: rest =>
    match updateImgSrc pairs index im.src with
    | none => none
    | some s =>
      match update_image_urls pairs index rest with
      | none => none
      | some tl => some ({ src := s } :: tl)

/-- The `while url[count] != "/"` scan of `update_css_file`'s third branch:
drop characters up to the next `/`, raising (`none`) when there is none. -/
def dropToSlash : List Char → Option (List Char)
  | [] => none
  | c :: t => if c = '/' then some (c :: t) else dropToSlash t

/-- The `while not address[-1].isalnum()` trim, on the reversed text:
drop leading non-alphanumeric characters, raising (`none`) when the text
runs out (`address[-1]` on an empty string). -/
def trimRev : List Char → Option (List Char)
  | [] => none
  | c :: t => if pyIsAlnum c then some (c :: t) else trimRev t

/-- Trailing-trim of `update_css_file`'s third branch. -/
def trimTrailing (s : List Char) : Option (List Char) :=
  (trimRev s.reverse).map List.reverse

/-- The three-way address resolution of `update_css_file` (lines 446-457)
for one extracted `url(...)` argument: leading `/` → `DOMAIN + url`;
leading alphanumeric → `cssUrl[:cssUrl.rfind("/")] + "/" + url`; otherwise
scan to the next `/`, prepend the domain, and trim trailing
non-alphanumeric characters. An empty argument raises on `url[0]`. -/
def resolveCssUrl (domain cssUrl url : List Char) : Option (List Char) :=
  match url with
  | [] => none
  | c :: _ =>
    if c = '/' then some (domain ++ url)
    else if pyIsAlnum c then
      some (pyTake cssUrl (pyRfind cssUrl (chars "/")) ++ '/' :: url)
    else
      match dropToSlash url with
      | none => none
      | some tail =>
        match trimTrailing (domain ++ tail) with
        | none => none
        | some a => some a

/-- `newAddress` of `update_css_file`: the resolved address's last path
segment, with a query string at positive index stripped. -/
def cssLocalName (address : List Char) : List Char :=
  let n := pyDrop address (pyRfind address (chars "/") + 1)
  if pyFind n (chars "?") > 0 then pyTake n (pyFind n (chars "?")) else n

/-- One line of `update_css_file`: when `url(` occurs, the argument up to
the following `)` is resolved and the line is rewritten to
`line[:beginIndex] + newAddress + line[endIndex:]` — unconditionally, the
rewrite is not guarded by the download's outcome.  Returns the written
line together with the attempted `(address, newAddress)` retrieval, if
any; `none` models an uncaught exception in the resolution. -/
def update_css_line (domain cssUrl line : List Char) :
    Option (List Char × Option (List Char × List Char)) :=
  let contains_link := pyFind line (chars "url(")
  if contains_link = -1 then some (line, none)
  else
    let beginIndex := contains_link + 4
    let endIndex := pyFindFrom line (chars ")") beginIndex
    let url := pySlice line beginIndex endIndex
    match resolveCssUrl domain cssUrl url with
    | none => none
    | some address =>
      let newAddress := cssLocalName address
      some (pyTake line beginIndex ++ newAddress ++ pyDrop line endIndex,
            some (address, newAddress))

/-- `update_css_file(cssUrl, temp, fileName)` over the file's lines, with
the network modelled by `fetchOk : address → Bool`: a failing
`urlretrieve` raises `HTTPError`, which the source catches and logs, so a
failure only omits the download — the substituted line is written either
way and later lines are still processed.  Returns the written lines and
the list of successfully downloaded local names. -/
def update_css_file (domain cssUrl : List Char) (fetchOk : List Char → Bool) :
    List (List Char) → Option (List (List Char) × List (List Char))
  | [] => some ([], [])
  | l :: rest =>
    match update_css_line domain cssUrl l with
    | none => none
    | some (w, att) =>
      let dl :=
        match att with
        | none => []
        | some (address, newAddress) =>
          if fetchOk address then [newAddress] else []
      match update_css_file domain cssUrl fetchOk rest with
      | none => none
      | some (ws, ds) => some (w :: ws, dl ++ ds)

/-- The relative path the page pass writes for one matching
`(pageId, pageFileName)` pair: `'./pages/' + name` on the root document,
`'../' + name` when the target is the index page, the bare name otherwise. -/
def pagePath (index : Bool) (name : List Char) : List Char :=
  if index then chars "./pages/" ++ name
  else if name = chars "index.html" then chars "../" ++ name
  else name

/-- A navigation anchor as `update_page` sees it: its `href` and its
`onclick` script text (both present). -/
structure PageAnchor where
  href : List Char
  onclick : List Char
deriving DecidableEq

/-- The embedded-asset pass (`update_file_urls`) restricted to one anchor:
the fold of `fileRefStep` over the id/name pairs applied to its href; the
`onclick` attribute is never written. -/
def anchor_file_pass (filePairs : List (List Char × List Char)) (index : Bool)
    (a : PageAnchor) : PageAnchor :=
  ⟨filePairs.foldl (fileRefStep index) a.href, a.onclick⟩

/-- The page pass (`update_page_urls`) restricted to one anchor:
`find_all('a', {'href': 'javascript://'})` selects the anchor only when its
current href is the literal `javascript://`; a selected anchor's href is
rewritten by the fold over the page id/name pairs. -/
def anchor_page_pass (pagePairs : List (List Char × List Char)) (index : Bool)
    (a : PageAnchor) : PageAnchor :=
  if a.href = chars "javascript://" then
    ⟨update_page_href pagePairs index a.onclick a.href, a.onclick⟩
  else a

/-- `update_page`'s rewrite passes restricted to one navigation anchor: of
the four passes only `update_file_urls` (run first) and `update_page_urls`
(run last) can touch an anchor's href — the stylesheet and image passes
iterate `link` and `img` elements only. -/
def update_page_anchor (filePairs pagePairs : List (List Char × List Char))
    (index : Bool) (a : PageAnchor) : PageAnchor :=
  anchor_page_pass pagePairs index (anchor_file_pass filePairs index a)

/-- `update_page`'s rewrite passes over a document's navigation anchors. -/
def update_page_anchors (filePairs pagePairs : List (List Char × List Char))
    (index : Bool) (doc : List PageAnchor) : List PageAnchor :=
  doc.map (update_page_anchor filePairs pagePairs index)

/-! ## Helper lemmas -/

theorem scanDigits_append_stop (ds rest : List Char) (c : Char)
    (hds : ∀ d ∈ ds, d.isDigit = true) (hc : c.isDigit = false) :
    scanDigits (ds ++ c :: rest) = some ds := by
  induction ds with
  | nil => simp [scanDigits, hc]
  | cons d ds ih =>
    have hd : d.isDigit = true := hds d (List.mem_cons_self d ds)
    have ih2 := ih (fun x hx => hds x (List.mem_cons_of_mem d hx))
    simp [scanDigits, hd, ih2]

theorem pyDrop_natCast (s : List Char) (n : Nat) :
    pyDrop s (n : Int) = s.drop n := by
  simp [pyDrop, pyIdx]

theorem scanDigits_all_digits :
    ∀ (ds : List Char), (∀ d ∈ ds, d.isDigit = true) → scanDigits ds = none := by
  intro ds
  induction ds with
  | nil => intro _; rfl
  | cons d t ih =>
    intro h
    have hd : d.isDigit = true := h d (List.mem_cons_self d t)
    have ht := ih (fun x hx => h x (List.mem_cons_of_mem d hx))
    simp [scanDigits, hd, ht]

/-- Closed form of the digit scan: it raises (`none`) exactly when every
remaining character is a digit (including the empty remainder), and
otherwise returns the maximal digit prefix. -/
theorem scanDigits_eq (t : List Char) :
    scanDigits t =
      if t.dropWhile (fun c => c.isDigit) = [] then none
      else some (t.takeWhile (fun c => c.isDigit)) := by
  induction t with
  | nil => rfl
  | cons c t ih =>
    by_cases hc : c.isDigit = true
    · rw [show (c :: t).dropWhile (fun c => c.isDigit) = t.dropWhile (fun c => c.isDigit) by
          simp [List.dropWhile_cons, hc],
        show (c :: t).takeWhile (fun c => c.isDigit) = c :: t.takeWhile (fun c => c.isDigit) by
          simp [List.takeWhile_cons, hc]]
      by_cases hd : t.dropWhile (fun c => c.isDigit) = [] <;>
        simp [scanDigits, hc, ih, hd]
    · have hc' : c.isDigit = false := by
        cases h : c.isDigit
        · rfl
        · exact absurd h hc
      simp [scanDigits, hc', List.dropWhile_cons, List.takeWhile_cons]

/-! ## C2 -/

/-- C2, corrected by counterexample: when the root id is absent from the
script text, `get_page_id` still returns a spurious digit run (here
`"5678"` scanned from the fallback offset `len(objectId)`), and when
`contextId=` is absent from the URL, `get_epo_id` still returns a spurious
digit run (here `"77"` scanned from offset `9`) — neither fails with
none/empty as the claim states. -/
theorem C2_counterexample :
    pyFind (chars "x5678,") (chars "9") = -1 ∧
    get_page_id (chars "x5678,") (chars "9") = some (chars "5678") ∧
    (chars "5678" ≠ []) ∧
    pyFind (chars "abcdefghi77x") (chars "contextId=") = -1 ∧
    get_epo_id (chars "abcdefghi77x") = some (chars "77") ∧
    (chars "77" ≠ []) := by
  refine ⟨by decide, by decide, by decide, by decide, by decide, by decide⟩

/-- C2, amended: with the marker absent, `find` returns `-1` and the scan
runs from the fixed fallback offset (`len(objectId)` for `get_page_id`,
`9` for `get_epo_id`).  The result is fully characterised: the extraction
raises `IndexError` (modelled `none`) exactly when every character from
the fallback offset to the end of the text is a digit — including when
nothing remains there — and otherwise it returns the maximal digit run
starting at that offset, which is empty exactly when the character at the
offset is a non-digit, and is a spurious identifier otherwise. -/
theorem C2_amended (onclick objectId href : List Char)
    (h1 : pyFind onclick objectId = -1)
    (h3 : pyFind href (chars "contextId=") = -1) :
    get_page_id onclick objectId =
      (if (onclick.drop objectId.length).dropWhile (fun c => c.isDigit) = []
        then none
        else some ((onclick.drop objectId.length).takeWhile (fun c => c.isDigit))) ∧
    get_epo_id href =
      (if (href.drop 9).dropWhile (fun c => c.isDigit) = [] then none
        else some ((href.drop 9).takeWhile (fun c => c.isDigit))) := by
  constructor
  · simp only [get_page_id]
    rw [h1]
    have harith : (-1 : Int) + (objectId.length : Int) + 1 = (objectId.length : Int) := by
      omega
    rw [harith, pyDrop_natCast]
    exact scanDigits_eq _
  · simp only [get_epo_id]
    rw [h3]
    have harith : (-1 : Int) + ((chars "contextId=").length : Int) = ((9 : Nat) : Int) := by
      decide
    rw [harith, pyDrop_natCast]
    exact scanDigits_eq _

/-- Closed witness for `C2_amended`, exercising both characterised
outcomes: a non-digit at the fallback offset gives the empty id, an empty
remainder raises. -/
theorem C2_amended_witness :
    get_page_id (chars "abc") (chars "zz") = some [] ∧
    get_epo_id (chars "ab") = none := by
  have h := C2_amended (chars "abc") (chars "zz") (chars "ab")
    (by decide) (by decide)
  constructor
  · rw [h.1]; decide
  · rw [h.2]; decide

/-! ## C7 -/

/-- C7, corrected by counterexample: with root id `"1234"`, the text
`"1234,5678abc"` yields page id `"5678"`, but the text `"1234,5678"` —
identical except that the digit run is terminated by the end of the text
instead of a non-digit — raises `IndexError` (modelled `none`): the result
is not independent of how the digit run is terminated. -/
theorem C7_counterexample :
    get_page_id (chars "1234,5678abc") (chars "1234") = some (chars "5678") ∧
    get_page_id (chars "1234,5678") (chars "1234") = none := by
  refine ⟨by decide, by decide⟩

/-- C7, amended: decompose any script text around the first occurrence of
the root id (an arbitrary prefix before it, one separator character after
it).  Whenever the digit run that follows is terminated by a non-digit
character, `get_page_id` returns exactly that maximal digit run,
independently of everything after the terminator; when the run instead
reaches the end of the text, the scan indexes past the end and raises
`IndexError` (modelled `none`). -/
theorem C7_amended (pre root ds rest : List Char) (sep c : Char)
    (hds : ∀ d ∈ ds, d.isDigit = true)
    (hc : c.isDigit = false)
    (hfind1 : pyFind (pre ++ root ++ sep :: (ds ++ c :: rest)) root = (pre.length : Int))
    (hfind2 : pyFind (pre ++ root ++ sep :: ds) root = (pre.length : Int)) :
    get_page_id (pre ++ root ++ sep :: (ds ++ c :: rest)) root = some ds ∧
    get_page_id (pre ++ root ++ sep :: ds) root = none := by
  have harith : (pre.length : Int) + (root.length : Int) + 1 =
      ((pre.length + root.length + 1 : Nat) : Int) := by
    push_cast
    ring
  have hlen : pre.length + root.length + 1 = ((pre ++ root) ++ [sep]).length := by
    simp
    omega
  constructor
  · simp only [get_page_id]
    rw [hfind1, harith, pyDrop_natCast]
    rw [show pre ++ root ++ sep :: (ds ++ c :: rest) =
        ((pre ++ root) ++ [sep]) ++ (ds ++ c :: rest) by simp]
    rw [hlen, List.drop_left]
    exact scanDigits_append_stop ds rest c hds hc
  · simp only [get_page_id]
    rw [hfind2, harith, pyDrop_natCast]
    rw [show pre ++ root ++ sep :: ds = ((pre ++ root) ++ [sep]) ++ ds by simp]
    rw [hlen, List.drop_left]
    exact scanDigits_all_digits ds hds

/-- Closed witness for `C7_amended`, on a realistic `onclick` text with the
root id at a positive index. -/
theorem C7_amended_witness :
    get_page_id (chars "GotoPage(" ++ chars "1234" ++ ',' :: (chars "5678" ++ ')' :: []))
        (chars "1234") = some (chars "5678") ∧
    get_page_id (chars "GotoPage(" ++ chars "1234" ++ ',' :: chars "5678")
        (chars "1234") = none :=
  C7_amended (chars "GotoPage(") (chars "1234") (chars "5678") [] ',' ')'
    (by decide) (by decide) (by decide) (by decide)

/-! ## C1 -/

/-- C1 is a code bug: `get_img` registers a formatting image's URL in
`imgUrls` but never appends its file name to `imgFileNames` (the
`fileDict` documentation and the parallel `get_css` show both lists are
meant to be filled), so `update_image_urls`' loop over
`zip(imgUrls, imgFileNames)` is empty and the matching `<img>`'s src is
left unchanged instead of becoming `./formatting/bg.png`. -/
theorem C1_image_rewrite_dead :
    (processImg (fun _ => []) make_file_dict ⟨some (chars "/d2l/img/bg.png")⟩).map
        (fun fd => (fd.imgUrls, fd.imgFileNames,
          update_image_urls (fd.imgUrls.zip fd.imgFileNames) true
            [⟨some (chars "/d2l/img/bg.png")⟩]))
      = some ([DOMAIN ++ chars "/d2l/img/bg.png"], [],
          some [⟨some (chars "/d2l/img/bg.png")⟩]) := by
  decide

/-! ## C4 -/

/-- C4, corrected by counterexample: registering two stylesheet links and
two formatting images whose URLs differ only by their query strings yields
two entries in each table — the dedup key is the full URL including the
query string, not the query-stripped URL. -/
theorem C4_counterexample :
    (get_css [⟨some (chars "text/css"), some (chars "/f/style.css?v=1")⟩,
              ⟨some (chars "text/css"), some (chars "/f/style.css?v=2")⟩]
        make_file_dict).map (fun fd => fd.cssUrls.length) = some 2 ∧
    (get_img (fun _ => []) [⟨some (chars "/i/bg.png?1")⟩, ⟨some (chars "/i/bg.png?2")⟩]
        make_file_dict).map (fun fd => fd.imgUrls.length) = some 2 := by
  refine ⟨by decide, by decide⟩

/-- C4, amended: a Stylesheet's and a FormattingImage's identity is the
full URL, query string included — re-registering the exact same URL is a
no-op, while URLs differing only by query string create separate entries;
the query stripping applies only to the derived file name. -/
theorem C4_amended (lookup : List Char → List Char) (fd : FileDict)
    (h s : List Char)
    (h1 : DOMAIN ++ h ∈ fd.cssUrls)
    (h2 : DOMAIN ++ s ∈ fd.imgUrls)
    (h3 : pyFind s (chars "d2lFile") < 0) :
    processLink fd ⟨some (chars "text/css"), some h⟩ = some fd ∧
    processImg lookup fd ⟨some s⟩ = some fd := by
  constructor
  · simp [processLink, h1]
  · simp [processImg, h3, h2]

/-- Closed witness for `C4_amended`. -/
theorem C4_amended_witness :
    processLink
        { make_file_dict with
            cssUrls := [DOMAIN ++ chars "/a.css"],
            imgUrls := [DOMAIN ++ chars "/b.png"] }
        ⟨some (chars "text/css"), some (chars "/a.css")⟩
      = some { make_file_dict with
            cssUrls := [DOMAIN ++ chars "/a.css"],
            imgUrls := [DOMAIN ++ chars "/b.png"] } ∧
    processImg (fun _ => [])
        { make_file_dict with
            cssUrls := [DOMAIN ++ chars "/a.css"],
            imgUrls := [DOMAIN ++ chars "/b.png"] }
        ⟨some (chars "/b.png")⟩
      = some { make_file_dict with
            cssUrls := [DOMAIN ++ chars "/a.css"],
            imgUrls := [DOMAIN ++ chars "/b.png"] } :=
  C4_amended (fun _ => [])
    { make_file_dict with
        cssUrls := [DOMAIN ++ chars "/a.css"],
        imgUrls := [DOMAIN ++ chars "/b.png"] }
    (chars "/a.css") (chars "/b.png")
    (by decide) (by decide) (by decide)

/-! ## C8 -/

/-- C8, confirmed: an embedded asset's identity is its platform object id.
Registering the id once from an anchor's href and once from an image's src
— two different URLs carrying the same `contextId` — appends exactly one
entry to each of `fileIds`, `fileUrls` and `fileNames`; the second
registration is a no-op. -/
theorem C8_embedded_id_dedup (lookup : List Char → List Char) (fd : FileDict)
    (h s i : List Char)
    (h1 : pyFind h (chars "d2lfile") > 0)
    (h2 : get_epo_id h = some i)
    (h3 : ¬ pyFind s (chars "d2lFile") < 0)
    (h4 : get_epo_id s = some i)
    (h5 : i ∉ fd.fileIds) :
    (processAnchor lookup fd ⟨some h⟩).bind
        (fun fd1 => processImg lookup fd1 ⟨some s⟩)
      = some { fd with
          fileIds := fd.fileIds ++ [i],
          fileUrls := fd.fileUrls ++ [DOMAIN ++ h],
          fileNames := fd.fileNames ++ [lookup i] } := by
  have hmem : i ∈ fd.fileIds ++ [i] := by simp
  simp [processAnchor, processImg, h1, h2, h3, h4, h5, hmem]

/-- Closed witness for `C8_embedded_id_dedup`. -/
theorem C8_embedded_id_dedup_witness :
    (processAnchor (fun x => 'f' :: x) make_file_dict
          ⟨some (chars "/x/d2lfile?contextId=9001&ok")⟩).bind
        (fun fd1 => processImg (fun x => 'f' :: x) fd1
          ⟨some (chars "/img/d2lFile?contextId=9001&z")⟩)
      = some { make_file_dict with
          fileIds := [chars "9001"],
          fileUrls := [DOMAIN ++ chars "/x/d2lfile?contextId=9001&ok"],
          fileNames := [chars "f9001"] } := by
  have := C8_embedded_id_dedup (fun x => 'f' :: x) make_file_dict
    (chars "/x/d2lfile?contextId=9001&ok") (chars "/img/d2lFile?contextId=9001&z")
    (chars "9001") (by decide) (by decide) (by decide) (by decide) (by decide)
  simpa [make_file_dict] using this

/-! ## C10 -/

theorem get_embedded_object_abort (lookup : List Char → List Char)
    (l1 l2 : List Anchor) :
    ∀ fd, get_embedded_object lookup (l1 ++ ⟨none⟩ :: l2) fd = none := by
  induction l1 with
  | nil => intro fd; simp [get_embedded_object, processAnchor]
  | cons a t ih =>
    intro fd
    simp only [List.cons_append, get_embedded_object]
    cases processAnchor lookup fd a with
    | none => rfl
    | some fd2 => exact ih fd2

theorem get_css_abort (hr : Option (List Char)) (l1 l2 : List LinkTag) :
    ∀ fd, get_css (l1 ++ ⟨none, hr⟩ :: l2) fd = none := by
  induction l1 with
  | nil => intro fd; simp [get_css, processLink]
  | cons l t ih =>
    intro fd
    simp only [List.cons_append, get_css]
    cases processLink fd l with
    | none => rfl
    | some fd2 => exact ih fd2

theorem update_image_urls_abort (p : List Char × List Char)
    (ps : List (List Char × List Char)) (index : Bool) (l1 l2 : List Img) :
    update_image_urls (p :: ps) index (l1 ++ ⟨none⟩ :: l2) = none := by
  induction l1 with
  | nil => simp [update_image_urls, updateImgSrc]
  | cons im t ih =>
    simp only [List.cons_append, update_image_urls]
    cases updateImgSrc (p :: ps) index im.src with
    | none => rfl
    | some s => simp [ih]

/-- C10, confirmed: the collection and rewrite loops read
`a['href']`, `link['type']` and (inside a loop over a non-empty
url/file-name zip) `img['src']` unconditionally, so one anchor without
`href` aborts `get_embedded_object`, one link without `type` aborts
`get_css`, and — whenever the image table is non-empty — one image
without `src` aborts `update_image_urls`, each with an attribute-lookup
error (modelled `none`) instead of skipping the element. -/
theorem C10_missing_attribute_aborts (lookup : List Char → List Char)
    (fd1 fd2 : FileDict) (hr : Option (List Char))
    (as1 as2 : List Anchor) (ls1 ls2 : List LinkTag) (is1 is2 : List Img)
    (pairs : List (List Char × List Char)) (index : Bool)
    (hpairs : pairs ≠ []) :
    get_embedded_object lookup (as1 ++ ⟨none⟩ :: as2) fd1 = none ∧
    get_css (ls1 ++ ⟨none, hr⟩ :: ls2) fd2 = none ∧
    update_image_urls pairs index (is1 ++ ⟨none⟩ :: is2) = none := by
  refine ⟨get_embedded_object_abort lookup as1 as2 fd1,
          get_css_abort hr ls1 ls2 fd2, ?_⟩
  cases pairs with
  | nil => exact absurd rfl hpairs
  | cons p ps => exact update_image_urls_abort p ps index is1 is2

/-- Closed witness for `C10_missing_attribute_aborts`. -/
theorem C10_missing_attribute_aborts_witness :
    get_embedded_object (fun _ => []) ([⟨some (chars "ok")⟩] ++ ⟨none⟩ :: [])
        make_file_dict = none ∧
    get_css ([] ++ (⟨none, some (chars "/s.css")⟩ : LinkTag) :: [])
        make_file_dict = none ∧
    update_image_urls [(chars "u", chars "n")] true
        ([⟨some (chars "/ok.png")⟩] ++ ⟨none⟩ :: []) = none :=
  C10_missing_attribute_aborts (fun _ => []) make_file_dict make_file_dict
    (some (chars "/s.css")) [⟨some (chars "ok")⟩] [] [] []
    [⟨some (chars "/ok.png")⟩] [] [(chars "u", chars "n")] true (by decide)

/-! ## C5 -/

theorem foldl_pageStep_nomatch (index : Bool) (onclick : List Char) :
    ∀ (l : List (List Char × List Char)) (h : List Char),
      (∀ p ∈ l, ¬ pyFind onclick p.1 > 0) →
      l.foldl (pageStep index onclick) h = h := by
  intro l
  induction l with
  | nil => intro h _; rfl
  | cons p t ih =>
    intro h hm
    have hp : ¬ pyFind onclick p.1 > 0 := hm p (List.mem_cons_self p t)
    simp only [List.foldl_cons, pageStep, if_neg hp]
    exact ih h (fun q hq => hm q (List.mem_cons_of_mem p hq))

/-- C5, corrected by counterexample: for the anchor
`onclick="GotoPage(1234,123);"` the encoded page id (per `get_page_id`
with root id `"1234"`) is `"123"`, which names page `b.html` in the index
`[("1234","index.html"), ("123","b.html"), ("12","a.html")]` — yet the
rewrite pass sets the root-document reference to `./pages/a.html`, not
`./pages/b.html`: the pass matches each page id as a raw substring of the
`onclick` text, every one of the three ids occurs at a positive index, and
the last matching pair wins. -/
theorem C5_counterexample :
    get_page_id (chars "GotoPage(1234,123);") (chars "1234") = some (chars "123") ∧
    (chars "123", chars "b.html") ∈
      ([(chars "1234", chars "index.html"), (chars "123", chars "b.html"),
        (chars "12", chars "a.html")] : List (List Char × List Char)) ∧
    update_page_href
        [(chars "1234", chars "index.html"), (chars "123", chars "b.html"),
         (chars "12", chars "a.html")]
        true (chars "GotoPage(1234,123);") (chars "javascript://")
      = chars "./pages/a.html" ∧
    chars "./pages/a.html" ≠ chars "./pages/b.html" := by
  refine ⟨by decide, by decide, by decide, by decide⟩

/-- C5, amended: the pass matches page ids as raw substrings of the
anchor's `onclick` at positive positions, and the reference is set by the
LAST matching `(pageId, pageFileName)` pair in index order — earlier pairs
(such as the root id, which co-occurs in every navigation script) may also
match and are overwritten.  For that last-matching pair the claimed path
rule holds: `./pages/<name>` on the root document, the bare `<name>` for a
non-root sibling, `../index.html` when the target is the root page. -/
theorem C5_amended (l1 l2 : List (List Char × List Char))
    (pid name onclick href0 : List Char) (index : Bool)
    (hmatch : pyFind onclick pid > 0)
    (hl2 : ∀ p ∈ l2, ¬ pyFind onclick p.1 > 0) :
    update_page_href (l1 ++ (pid, name) :: l2) index onclick href0 =
      if index then chars "./pages/" ++ name
      else if name = chars "index.html" then chars "../index.html"
      else name := by
  unfold update_page_href
  rw [List.foldl_append]
  simp only [List.foldl_cons]
  rw [foldl_pageStep_nomatch index onclick l2 _ hl2]
  simp only [pageStep, if_pos hmatch]
  by_cases hidx : index
  · simp [hidx]
  · by_cases hname : name = chars "index.html"
    · subst hname
      simp [hidx]
      rfl
    · simp [hidx, hname]

/-- Closed witness for `C5_amended`: a realistic sibling link whose
`onclick` also contains the root id (the root pair co-matches in `l1` and
is overwritten by the later sibling match). -/
theorem C5_amended_witness :
    update_page_href
        [(chars "1234", chars "index.html"), (chars "5678", chars "reflections.html")]
        false (chars "GotoPage(1234,5678);") (chars "javascript://")
      = chars "reflections.html" := by
  have := C5_amended [(chars "1234", chars "index.html")] []
    (chars "5678") (chars "reflections.html") (chars "GotoPage(1234,5678);")
    (chars "javascript://") false (by decide) (by decide)
  simpa using this

/-! ## C9 -/

theorem fileStep_decomp (index : Bool) (it : Item) (p : List Char × List Char) :
    fileStep index it p =
      ⟨it.href.map (fun h => fileRefStep index h p),
       it.src.map (fun s => fileRefStep index s p)⟩ := by
  obtain ⟨ho, so⟩ := it
  cases ho <;> cases so <;> simp [fileStep]

theorem update_item_decomp (pairs : List (List Char × List Char)) (index : Bool) :
    ∀ it : Item,
      update_file_urls_item pairs index it =
        ⟨it.href.map (fun h => pairs.foldl (fileRefStep index) h),
         it.src.map (fun s => pairs.foldl (fileRefStep index) s)⟩ := by
  induction pairs with
  | nil =>
    intro it
    obtain ⟨ho, so⟩ := it
    cases ho <;> cases so <;> rfl
  | cons p t ih =>
    intro it
    show update_file_urls_item t index (fileStep index it p) = _
    rw [ih, fileStep_decomp]
    obtain ⟨ho, so⟩ := it
    cases ho <;> cases so <;> simp [List.foldl_cons]

theorem foldl_fileRefStep_cases (index : Bool) :
    ∀ (pairs : List (List Char × List Char)) (h : List Char),
      pairs.foldl (fileRefStep index) h = h ∨
        ∃ p ∈ pairs, pairs.foldl (fileRefStep index) h = contentPath index p.2 := by
  intro pairs
  induction pairs with
  | nil => intro h; left; rfl
  | cons p t ih =>
    intro h
    simp only [List.foldl_cons]
    rcases ih (fileRefStep index h p) with heq | ⟨q, hq, heq⟩
    · by_cases hm : pyFind h p.1 > 0
      · right
        refine ⟨p, List.mem_cons_self p t, ?_⟩
        rw [heq]
        simp [fileRefStep, if_pos hm]
      · left
        rw [heq]
        simp [fileRefStep, if_neg hm]
    · right
      exact ⟨q, List.mem_cons_of_mem p hq, heq⟩

theorem foldl_fileRefStep_nomatch (index : Bool) :
    ∀ (pairs : List (List Char × List Char)) (h : List Char),
      (∀ p ∈ pairs, ¬ pyFind h p.1 > 0) →
      pairs.foldl (fileRefStep index) h = h := by
  intro pairs
  induction pairs with
  | nil => intro h _; rfl
  | cons p t ih =>
    intro h hm
    have hp : ¬ pyFind h p.1 > 0 := hm p (List.mem_cons_self p t)
    simp only [List.foldl_cons, fileRefStep, if_neg hp]
    exact ih h (fun q hq => hm q (List.mem_cons_of_mem p hq))

theorem fileRef_idem (index : Bool) (pairs : List (List Char × List Char))
    (hclean : ∀ p ∈ pairs, ∀ q ∈ pairs,
      ¬ pyFind (contentPath index q.2) p.1 > 0) (h : List Char) :
    pairs.foldl (fileRefStep index) (pairs.foldl (fileRefStep index) h) =
      pairs.foldl (fileRefStep index) h := by
  rcases foldl_fileRefStep_cases index pairs h with heq | ⟨q, hq, heq⟩
  · rw [heq]
    exact heq
  · rw [heq]
    exact foldl_fileRefStep_nomatch index pairs _ (fun p hp => hclean p hp q hq)

theorem pageStep_match_value (index : Bool) (onclick h : List Char)
    (p : List Char × List Char) (hm : pyFind onclick p.1 > 0) :
    pageStep index onclick h p = pagePath index p.2 := by
  simp only [pageStep, pagePath, if_pos hm]
  by_cases hidx : index
  · simp [hidx]
  · by_cases hn : p.2 = chars "index.html" <;> simp [hidx, hn]

theorem foldl_pageStep_cases (index : Bool) (onclick : List Char) :
    ∀ (pairs : List (List Char × List Char)) (h : List Char),
      pairs.foldl (pageStep index onclick) h = h ∨
        ∃ q ∈ pairs, pairs.foldl (pageStep index onclick) h = pagePath index q.2 := by
  intro pairs
  induction pairs with
  | nil => intro h; left; rfl
  | cons p t ih =>
    intro h
    simp only [List.foldl_cons]
    rcases ih (pageStep index onclick h p) with heq | ⟨q, hq, heq⟩
    · by_cases hm : pyFind onclick p.1 > 0
      · right
        refine ⟨p, List.mem_cons_self p t, ?_⟩
        rw [heq, pageStep_match_value index onclick h p hm]
      · left
        rw [heq]
        simp [pageStep, if_neg hm]
    · right
      exact ⟨q, List.mem_cons_of_mem p hq, heq⟩

theorem contentPath_ne_js (index : Bool) (n : List Char) :
    contentPath index n ≠ chars "javascript://" := by
  intro h
  have hh : (contentPath index n).head? = some '.' := by
    cases index <;> rfl
  rw [h] at hh
  exact absurd hh (by decide)

theorem update_page_anchor_idem (filePairs pagePairs : List (List Char × List Char))
    (index : Bool)
    (P1 : ∀ p ∈ filePairs, ∀ q ∈ filePairs, ¬ pyFind (contentPath index q.2) p.1 > 0)
    (P2 : ∀ p ∈ filePairs, ∀ q ∈ pagePairs, ¬ pyFind (pagePath index q.2) p.1 > 0)
    (P3 : ∀ p ∈ filePairs, ¬ pyFind (chars "javascript://") p.1 > 0)
    (P4 : ∀ q ∈ pagePairs, pagePath index q.2 ≠ chars "javascript://")
    (a : PageAnchor) :
    update_page_anchor filePairs pagePairs index
        (update_page_anchor filePairs pagePairs index a) =
      update_page_anchor filePairs pagePairs index a := by
  obtain ⟨h0, oc⟩ := a
  by_cases hjs : filePairs.foldl (fileRefStep index) h0 = chars "javascript://"
  · have hinner : update_page_anchor filePairs pagePairs index ⟨h0, oc⟩ =
        ⟨update_page_href pagePairs index oc (chars "javascript://"), oc⟩ := by
      simp [update_page_anchor, anchor_file_pass, anchor_page_pass, hjs]
    rw [hinner]
    rcases foldl_pageStep_cases index oc pagePairs (chars "javascript://")
      with heq | ⟨q, hq, heq⟩
    · have hpage : update_page_href pagePairs index oc (chars "javascript://") =
          chars "javascript://" := heq
      have hfile : filePairs.foldl (fileRefStep index) (chars "javascript://") =
          chars "javascript://" :=
        foldl_fileRefStep_nomatch index filePairs _ P3
      rw [hpage]
      simp [update_page_anchor, anchor_file_pass, anchor_page_pass, hfile, hpage]
    · have hpage : update_page_href pagePairs index oc (chars "javascript://") =
          pagePath index q.2 := heq
      have hfile : filePairs.foldl (fileRefStep index) (pagePath index q.2) =
          pagePath index q.2 :=
        foldl_fileRefStep_nomatch index filePairs _ (fun p hp => P2 p hp q hq)
      have hne : pagePath index q.2 ≠ chars "javascript://" := P4 q hq
      rw [hpage]
      simp [update_page_anchor, anchor_file_pass, anchor_page_pass, hfile, hne]
  · have hinner : update_page_anchor filePairs pagePairs index ⟨h0, oc⟩ =
        ⟨filePairs.foldl (fileRefStep index) h0, oc⟩ := by
      simp [update_page_anchor, anchor_file_pass, anchor_page_pass, hjs]
    rw [hinner]
    rcases foldl_fileRefStep_cases index filePairs h0 with heq | ⟨q, hq, heq⟩
    · have h0js : ¬ h0 = chars "javascript://" := fun hh => hjs (heq.trans hh)
      rw [heq]
      simp [update_page_anchor, anchor_file_pass, anchor_page_pass, heq, h0js]
    · have hfile : filePairs.foldl (fileRefStep index) (contentPath index q.2) =
          contentPath index q.2 :=
        foldl_fileRefStep_nomatch index filePairs _ (fun p hp => P1 p hp q hq)
      have hne := contentPath_ne_js index q.2
      rw [heq]
      simp [update_page_anchor, anchor_file_pass, anchor_page_pass, hfile, hne]

/-- C9, corrected by counterexample, at the document level: with the
frozen index holding embedded asset `("77", "doc.pdf")` and page
`("5", "unit77.html")`, the first run of `update_page`'s passes turns the
navigation anchor's `javascript://` into `./pages/unit77.html` (the
asset pass does not touch it); the second run's asset pass — which runs
before the page pass — matches asset id `"77"` inside that rewritten page
path and changes the reference again, to `./content/doc.pdf`.  Re-running
the passes is therefore not a no-op. -/
theorem C9_counterexample :
    update_page_anchors [(chars "77", chars "doc.pdf")]
        [(chars "5", chars "unit77.html")] true
        (update_page_anchors [(chars "77", chars "doc.pdf")]
          [(chars "5", chars "unit77.html")] true
          [⟨chars "javascript://", chars "GotoPage(5)x"⟩])
      ≠ update_page_anchors [(chars "77", chars "doc.pdf")]
          [(chars "5", chars "unit77.html")] true
          [⟨chars "javascript://", chars "GotoPage(5)x"⟩] := by
  decide

/-- C9, amended: rewriting is a pure function of the frozen index and the
root flag (determinism is definitional), and re-running the passes over a
document's navigation anchors is a no-op provided the rewritten values
cannot re-enter the passes' matches: no `./content/<name>` /
`../content/<name>` and no page-pass output path (`./pages/<name>`, bare
sibling `<name>`, `../index.html`) contains an asset id at a positive
position, no asset id occurs at a positive position inside the literal
`javascript://`, and no page-pass output equals `javascript://`.  Without
these provisos a second run can change references again, both inside the
asset pass and across passes. -/
theorem C9_amended (filePairs pagePairs : List (List Char × List Char))
    (index : Bool) (doc : List PageAnchor)
    (P1 : ∀ p ∈ filePairs, ∀ q ∈ filePairs, ¬ pyFind (contentPath index q.2) p.1 > 0)
    (P2 : ∀ p ∈ filePairs, ∀ q ∈ pagePairs, ¬ pyFind (pagePath index q.2) p.1 > 0)
    (P3 : ∀ p ∈ filePairs, ¬ pyFind (chars "javascript://") p.1 > 0)
    (P4 : ∀ q ∈ pagePairs, pagePath index q.2 ≠ chars "javascript://") :
    update_page_anchors filePairs pagePairs index
        (update_page_anchors filePairs pagePairs index doc) =
      update_page_anchors filePairs pagePairs index doc := by
  unfold update_page_anchors
  rw [List.map_map]
  apply List.map_congr_left
  intro a _
  show update_page_anchor filePairs pagePairs index
      (update_page_anchor filePairs pagePairs index a) =
    update_page_anchor filePairs pagePairs index a
  exact update_page_anchor_idem filePairs pagePairs index P1 P2 P3 P4 a

/-- Closed witness for `C9_amended`: a realistic index (asset id `9001`
with name `report.pdf`, pages `index.html` and `reflections.html`) whose
rewritten paths collide with nothing, over a document holding one
navigation anchor. -/
theorem C9_amended_witness :
    update_page_anchors [(chars "9001", chars "report.pdf")]
        [(chars "1234", chars "index.html"), (chars "5678", chars "reflections.html")]
        false
        (update_page_anchors [(chars "9001", chars "report.pdf")]
          [(chars "1234", chars "index.html"), (chars "5678", chars "reflections.html")]
          false [⟨chars "javascript://", chars "GotoPage(1234,5678);"⟩])
      = update_page_anchors [(chars "9001", chars "report.pdf")]
          [(chars "1234", chars "index.html"), (chars "5678", chars "reflections.html")]
          false [⟨chars "javascript://", chars "GotoPage(1234,5678);"⟩] :=
  C9_amended [(chars "9001", chars "report.pdf")]
    [(chars "1234", chars "index.html"), (chars "5678", chars "reflections.html")]
    false [⟨chars "javascript://", chars "GotoPage(1234,5678);"⟩]
    (by decide) (by decide) (by decide) (by decide)

/-! ## C3 -/

/-- C3, corrected by counterexample: with every fetch failing (the
downloads list stays empty), the `url(/x/bad.png)` reference is still
substituted with its local name `bad.png` in the written line — the
substitution is not skipped on fetch failure.  Processing does continue:
the following line is written as well. -/
theorem C3_counterexample :
    update_css_file (chars "https://example.org")
        (chars "https://example.org/css/theme.css") (fun _ => false)
        [chars "a: url(/x/bad.png);", chars "b: c;"]
      = some ([chars "a: url(bad.png);", chars "b: c;"], []) ∧
    chars "a: url(bad.png);" ≠ chars "a: url(/x/bad.png);" := by
  refine ⟨by decide, by decide⟩

/-- C3, amended: a failed fetch of a CSS `url()` asset is caught and
logged and processing of the rest of the file continues, but the in-place
substitution is performed regardless of the fetch's outcome — the written
lines are completely independent of which fetches succeed; only the
download list depends on them. -/
theorem C3_amended (domain cssUrl : List Char) (f g : List Char → Bool)
    (lines : List (List Char)) :
    Option.map Prod.fst (update_css_file domain cssUrl f lines) =
      Option.map Prod.fst (update_css_file domain cssUrl g lines) := by
  induction lines with
  | nil => rfl
  | cons l rest ih =>
    simp only [update_css_file]
    cases hline : update_css_line domain cssUrl l with
    | none => rfl
    | some wa =>
      obtain ⟨w, att⟩ := wa
      cases hf : update_css_file domain cssUrl f rest with
      | none =>
        cases hg : update_css_file domain cssUrl g rest with
        | none => rfl
        | some pg =>
          rw [hf, hg] at ih
          simp at ih
      | some pf =>
        cases hg : update_css_file domain cssUrl g rest with
        | none =>
          rw [hf, hg] at ih
          simp at ih
        | some pg =>
          obtain ⟨wsf, dsf⟩ := pf
          obtain ⟨wsg, dsg⟩ := pg
          rw [hf, hg] at ih
          have hws : wsf = wsg := by
            simpa using ih
          simp [hws]

/-! ## C6 -/

theorem rfindAux_shift (needle : List Char) :
    ∀ (l : List Char) (i : Nat),
      rfindAux needle l i = (rfindAux needle l 0).map (fun n => n + i) := by
  intro l
  induction l with
  | nil =>
    intro i
    simp only [rfindAux]
    by_cases hp : needle.isPrefixOf ([] : List Char) <;> simp [hp]
  | cons c t ih =>
    intro i
    simp only [rfindAux]
    rw [ih (i + 1), ih 1]
    cases h0 : rfindAux needle t 0 with
    | some k =>
      show some (k + (i + 1)) = some (k + 1 + i)
      exact congrArg some (by omega)
    | none =>
      by_cases hp : needle.isPrefixOf (c :: t) <;> simp [hp]

theorem rfindAux_slash_none :
    ∀ (base : List Char), '/' ∉ base → ∀ i, rfindAux (chars "/") base i = none := by
  intro base
  induction base with
  | nil => intro _ i; rfl
  | cons x t ih =>
    intro hgone i
    have ht : '/' ∉ t := fun h => hgone (List.mem_cons_of_mem x h)
    have hx : ¬ ('/' : Char) = x := fun h => hgone (by rw [h]; exact List.mem_cons_self x t)
    simp only [rfindAux, ih ht (i + 1)]
    simp [chars, List.isPrefixOf, hx]

theorem rfindAux_slash_append :
    ∀ (dir base : List Char), '/' ∉ base →
      rfindAux (chars "/") (dir ++ '/' :: base) 0 = some dir.length := by
  intro dir
  induction dir with
  | nil =>
    intro base hb
    show rfindAux (chars "/") ('/' :: base) 0 = some 0
    simp only [rfindAux, rfindAux_slash_none base hb 1]
    simp [chars, List.isPrefixOf]
  | cons x d ih =>
    intro base hb
    show rfindAux (chars "/") (x :: (d ++ '/' :: base)) 0 = some (d.length + 1)
    simp only [rfindAux]
    rw [rfindAux_shift (chars "/") (d ++ '/' :: base) 1, ih base hb]
    rfl

theorem pyRfind_slash_append (dir base : List Char) (hb : '/' ∉ base) :
    pyRfind (dir ++ '/' :: base) (chars "/") = (dir.length : Int) := by
  unfold pyRfind
  rw [rfindAux_slash_append dir base hb]

/-- C6, corrected by counterexample: for `url(icon.png?v=2)` inside
`https://example.org/css/theme.css`, the code resolves the address to
`https://example.org/css/icon.png?v=2` — the query string stays on the
resolved address, which therefore differs from the claim's
`https://example.org/css/icon.png`; only the local file name `icon.png`
has the query stripped. -/
theorem C6_counterexample :
    resolveCssUrl (chars "https://example.org")
        (chars "https://example.org/css/theme.css") (chars "icon.png?v=2")
      = some (chars "https://example.org/css/icon.png?v=2") ∧
    chars "https://example.org/css/icon.png?v=2"
      ≠ chars "https://example.org/css/icon.png" ∧
    cssLocalName (chars "https://example.org/css/icon.png?v=2")
      = chars "icon.png" := by
  refine ⟨by decide, by decide, by decide⟩

/-- C6, amended: the three-way resolution rule holds with the relative
branch keeping the reference's query string on the resolved address —
a leading `/` yields the domain plus the literal path; a leading
alphanumeric character yields the CSS file's remote directory plus `/`
plus the literal reference (query string included); other leading
punctuation scans to the next `/` and resolves against the domain with
trailing non-alphanumeric characters trimmed.  The local file name is the
resolved address's final segment with the query stripped, so
`url(/images/bg.png)` under `https://example.org` gives
`https://example.org/images/bg.png` with name `bg.png`, and
`url(icon.png?v=2)` under `https://example.org/css/theme.css` gives
`https://example.org/css/icon.png?v=2` with name `icon.png`. -/
theorem C6_amended (domain anyCss dir base rest : List Char) (c : Char)
    (hbase : '/' ∉ base) (hc : pyIsAlnum c = true) :
    resolveCssUrl domain anyCss ('/' :: rest) = some (domain ++ '/' :: rest) ∧
    resolveCssUrl domain (dir ++ '/' :: base) (c :: rest)
      = some (dir ++ '/' :: c :: rest) ∧
    resolveCssUrl (chars "https://example.org") (chars "c")
        (chars " /foo/x.png?a=1#")
      = some (chars "https://example.org/foo/x.png?a=1") ∧
    resolveCssUrl (chars "https://example.org")
        (chars "https://example.org/css/theme.css") (chars "/images/bg.png")
      = some (chars "https://example.org/images/bg.png") ∧
    cssLocalName (chars "https://example.org/images/bg.png") = chars "bg.png" ∧
    resolveCssUrl (chars "https://example.org")
        (chars "https://example.org/css/theme.css") (chars "icon.png?v=2")
      = some (chars "https://example.org/css/icon.png?v=2") ∧
    cssLocalName (chars "https://example.org/css/icon.png?v=2")
      = chars "icon.png" := by
  have hcslash : ¬ c = '/' := by
    intro h
    rw [h] at hc
    exact absurd hc (by decide)
  refine ⟨?_, ?_, by decide, by decide, by decide, by decide, by decide⟩
  · simp [resolveCssUrl]
  · simp only [resolveCssUrl, if_neg hcslash, if_pos hc]
    rw [pyRfind_slash_append dir base hbase]
    simp only [pyTake, pyIdx]
    rw [if_pos (by omega : (0 : Int) ≤ (dir.length : Int))]
    rw [show ((dir.length : Int)).toNat = dir.length from rfl]
    rw [List.take_left]

/-- Closed witness for `C6_amended`. -/
theorem C6_amended_witness :
    resolveCssUrl (chars "d") (chars "c") ('/' :: chars "con.png?v=2")
      = some (chars "d" ++ '/' :: chars "con.png?v=2") ∧
    resolveCssUrl (chars "d") (chars "a/b" ++ '/' :: chars "theme.css")
        ('i' :: chars "con.png?v=2")
      = some (chars "a/b" ++ '/' :: 'i' :: chars "con.png?v=2") ∧
    resolveCssUrl (chars "https://example.org") (chars "c")
        (chars " /foo/x.png?a=1#")
      = some (chars "https://example.org/foo/x.png?a=1") ∧
    resolveCssUrl (chars "https://example.org")
        (chars "https://example.org/css/theme.css") (chars "/images/bg.png")
      = some (chars "https://example.org/images/bg.png") ∧
    cssLocalName (chars "https://example.org/images/bg.png") = chars "bg.png" ∧
    resolveCssUrl (chars "https://example.org")
        (chars "https://example.org/css/theme.css") (chars "icon.png?v=2")
      = some (chars "https://example.org/css/icon.png?v=2") ∧
    cssLocalName (chars "https://example.org/css/icon.png?v=2")
      = chars "icon.png" :=
  C6_amended (chars "d") (chars "c") (chars "a/b") (chars "theme.css")
    (chars "con.png?v=2") 'i' (by decide) (by decide)

end D2LExport
